import Mathlib

/-!
Shallow embedding of `trendradar/ai_hotspots.py`.

The module consumes day-snapshots of news items (`NewsData`), flattens and
sorts them, deduplicates today's items against yesterday's and within the
day, truncates, renumbers, renders to text and builds output paths/keys.

Python conventions modelled explicitly:
- optional strings (`url`, `mobile_url`, `source_name`) are modelled as
  `String` with `""` playing the role of `None`: every access in the source
  goes through `x or ""` / `x or fallback`, which identifies `None` and `""`;
- the optional `rank` is modelled as `Int` with `0` playing the role of
  `None`: every access goes through `x.rank or 999` / `int(x.rank or 0)`,
  which identifies `None` and `0`;
- Python dicts are modelled as association lists (`List (key × value)`);
  insertion order is the list order, `dict.get` is the first hit of `find?`;
- Python sets are modelled as lists used only through membership;
- `list.sort(key=...)` (stable, ascending by lexicographic tuple comparison)
  is modelled by `List.insertionSort` (also stable) with the same
  lexicographic key, so both produce the same list.

The collaborator functions `clean_title` (from `trendradar.report.helpers`)
and `normalize_url` (from `trendradar.utils.url`) are not part of this
module; per the spec they are opaque deterministic pure functions, so the
embedding is parameterised over them.
-/

/-- One news item, as consumed by the module (`NewsItem` of
`trendradar.storage.base`).  `source_name` is backfilled by the flattener. -/
structure NewsItem where
  source_id : String
  title : String
  source_name : String := ""
  url : String := ""
  mobile_url : String := ""
  rank : Int := 0
  deriving Repr, DecidableEq, Inhabited

/-- One day-snapshot (`NewsData` of `trendradar.storage.base`): a mapping
from `source_id` to that platform's item list, plus an id-to-name mapping. -/
structure NewsData where
  items : List (String × List NewsItem) := []
  id_to_name : List (String × String) := []
  deriving Repr, DecidableEq, Inhabited

/-- Export model of one hotspot line (dataclass `AiHotspotLine`). -/
structure AiHotspotLine where
  idx : Nat
  platform_id : String
  platform_name : String
  title : String
  url : String := ""
  mobile_url : String := ""
  rank : Int := 0
  deriving Repr, DecidableEq, Inhabited

/-- Python `d.get(k)` on an insertion-ordered dict modelled as an
association list. -/
def dictGet (m : List (String × String)) (k : String) : Option String :=
  (m.find? (fun p => p.1 = k)).map (fun p => p.2)

/-- Python `a or b` for `a : Optional[str]`: `b` when `a` is `None` or the
empty string (both falsy), else the string itself. -/
def strOr (a : Option String) (b : String) : String :=
  match a with
  | none => b
  | some s => if s = "" then b else s

/-- Python `r or d` for `r : Optional[int]` modelled as `Int` with `0` for
`None`: `0` is falsy. -/
def intOr (r d : Int) : Int :=
  if r = 0 then d else r

/-- Python's default `.strip()` whitespace class (space, tab, newline,
carriage return, vertical tab, form feed). -/
def isPySpace (c : Char) : Bool :=
  c = ' ' || c = '\t' || c = '\n' || c = '\r' || c = '\x0b' || c = '\x0c'

/-- Python `s.strip()`: drop whitespace from both ends. -/
def pyStrip (s : String) : String :=
  String.mk ((s.data.dropWhile isPySpace).reverse.dropWhile isPySpace).reverse

/-- ASCII lowering of one character (the fragment of Python `str.lower`
the embedding needs). -/
def charLower (c : Char) : Char :=
  if 'A' ≤ c && c ≤ 'Z' then Char.ofNat (c.toNat + 32) else c

/-- Python `s.lower()`, modelled on the ASCII range. -/
def pyLower (s : String) : String :=
  String.mk (s.data.map charLower)

/-- `Modelled from the spec:` the title-cleaning collaborator
`clean_title` (`trendradar.report.helpers`, not under `src/`).  The spec
only requires it to be a deterministic, idempotent pure function with
unspecified concrete cleaning rules; the identity satisfies that contract
and is used to instantiate witnesses and counterexamples. -/
def clean_title_model : String → String := fun s => s

/-- `Modelled from the spec:` the URL-normalisation collaborator
`normalize_url` (`trendradar.utils.url`, not under `src/`).  The spec only
requires a deterministic, idempotent canonicalisation; the projection to
the raw URL satisfies that contract and is used to instantiate witnesses
and counterexamples. -/
def normalize_url_model : String → String → String := fun u _ => u

/-- `_item_identity`: stable cross-day identity of one item — the
normalised URL when the trimmed URL is non-empty, else the cleaned,
lowercased title, each behind a tag prefix. -/
def _item_identity (clean_title : String → String)
    (normalize_url : String → String → String) (item : NewsItem) : String :=
  let url := pyStrip item.url
  if url ≠ "" then "url:" ++ normalize_url url item.source_id
  else "title:" ++ pyLower (clean_title item.title)

/-- Name resolution performed by `_flatten_news` for the items filed under
`source_id`: `id_to_name.get(source_id) or data.id_to_name.get(source_id)
or source_id` (Python `or`, so empty-string entries also fall through). -/
def resolveName (id_to_name : List (String × String)) (data : NewsData)
    (source_id : String) : String :=
  strOr (dictGet id_to_name source_id)
    (strOr (dictGet data.id_to_name source_id) source_id)

/-- The sort key of `_flatten_news`:
`(x.rank or 999, x.source_id or "", clean_title(x.title))`, compared as a
Python tuple, i.e. lexicographically (`x.source_id or ""` is the identity
on our `String` model of `source_id`). -/
def sortKey (clean_title : String → String) (x : NewsItem) :
    Lex (Int × Lex (String × String)) :=
  toLex (intOr x.rank 999, toLex (x.source_id, clean_title x.title))

/-- The ≤ relation on items induced by `sortKey`: how Python compares the
key tuples in `items.sort(key=...)`. -/
def itemLE (clean_title : String → String) (a b : NewsItem) : Prop :=
  sortKey clean_title a ≤ sortKey clean_title b

instance (clean_title : String → String) : DecidableRel (itemLE clean_title) :=
  fun a b =>
    inferInstanceAs (Decidable (sortKey clean_title a ≤ sortKey clean_title b))

instance (clean_title : String → String) : IsTotal NewsItem (itemLE clean_title) :=
  ⟨fun a b => le_total (sortKey clean_title a) (sortKey clean_title b)⟩

instance (clean_title : String → String) : IsTrans NewsItem (itemLE clean_title) :=
  ⟨fun _ _ _ hab hbc => le_trans hab hbc⟩

/-- `_flatten_news`: concatenate all platforms' item lists in dict order,
backfilling `source_name` (modelled as a pure record update rather than the
source's in-place mutation), then sort stably by `sortKey`.  Python's
`list.sort` is a stable ascending sort by the key; `insertionSort` with the
same total preorder is stable as well, hence produces the same list. -/
def _flatten_news (clean_title : String → String) (data : NewsData)
    (id_to_name : List (String × String)) : List NewsItem :=
  let items := data.items.flatMap (fun p =>
    p.2.map (fun it => { it with source_name := resolveName id_to_name data p.1 }))
  List.insertionSort (itemLE clean_title) items

/-- The dedup loop of `build_daily_unique_hotspots`: walk the flattened
items, skip an item whose identity is in `yesterday_seen` or already in the
accumulated `today_seen`, otherwise accept it and record its identity. -/
def dedupWalk (clean_title : String → String)
    (normalize_url : String → String → String) (yesterday_seen : List String) :
    List NewsItem → List String → List NewsItem
  | [], _ => []
  | it :: rest, today_seen =>
    let identity := _item_identity clean_title normalize_url it
    if identity ∈ yesterday_seen then
      dedupWalk clean_title normalize_url yesterday_seen rest today_seen
    else if identity ∈ today_seen then
      dedupWalk clean_title normalize_url yesterday_seen rest today_seen
    else
      it :: dedupWalk clean_title normalize_url yesterday_seen rest
        (identity :: today_seen)

/-- The `yesterday_seen` set: identities of yesterday's flattened items,
empty when no yesterday snapshot is given. -/
def yesterdaySeen (clean_title : String → String)
    (normalize_url : String → String → String)
    (yesterday_data : Option NewsData) : List String :=
  match yesterday_data with
  | none => []
  | some yd =>
    (_flatten_news clean_title yd yd.id_to_name).map
      (_item_identity clean_title normalize_url)

/-- The candidate list of `build_daily_unique_hotspots`: today's flattened
items after the cross-day and within-day dedup passes, before truncation. -/
def uniqueCandidates (clean_title : String → String)
    (normalize_url : String → String → String) (today_data : NewsData)
    (yesterday_data : Option NewsData) : List NewsItem :=
  dedupWalk clean_title normalize_url
    (yesterdaySeen clean_title normalize_url yesterday_data)
    (_flatten_news clean_title today_data today_data.id_to_name) []

/-- Construction of one output line (the `AiHotspotLine(...)` call):
`platform_name = it.source_name or it.source_id`, cleaned title, trimmed
URLs, `rank = int(it.rank or 0)` (identity on our `Int` model). -/
def mkLine (clean_title : String → String) (idx : Nat) (it : NewsItem) :
    AiHotspotLine :=
  { idx := idx
    platform_id := it.source_id
    platform_name := if it.source_name = "" then it.source_id else it.source_name
    title := clean_title it.title
    url := pyStrip it.url
    mobile_url := pyStrip it.mobile_url
    rank := it.rank }

/-- Renumbering pass: `enumerate(candidates, start=1)` mapped through the
line constructor. -/
def linesOf (clean_title : String → String) (cands : List NewsItem) :
    List AiHotspotLine :=
  cands.enum.map (fun p => mkLine clean_title (p.1 + 1) p.2)

/-- `build_daily_unique_hotspots`: flatten today, build yesterday's seen
set, dedup, truncate to `max_items` when positive, renumber; returns the
lines and the pre-truncation candidate count. -/
def build_daily_unique_hotspots (clean_title : String → String)
    (normalize_url : String → String → String) (today_data : NewsData)
    (yesterday_data : Option NewsData) (max_items : Int) :
    List AiHotspotLine × Nat :=
  let unique := uniqueCandidates clean_title normalize_url today_data yesterday_data
  let total_candidates := unique.length
  let truncated := if max_items > 0 then unique.take max_items.toNat else unique
  (linesOf clean_title truncated, total_candidates)

/-- One body line of `render_ai_hotspots_text`: the fixed head followed by
optional `[URL:...]`, `[MOBILE:...]`, `[RANK:...]` segments, each appended
only when the field is truthy, in that order. -/
def renderLine (it : AiHotspotLine) : String :=
  let line := toString it.idx ++ ". [platform=" ++ it.platform_name ++
    "] [platform_id=" ++ it.platform_id ++ "] " ++ it.title
  let line := if it.url ≠ "" then line ++ " [URL:" ++ it.url ++ "]" else line
  let line :=
    if it.mobile_url ≠ "" then line ++ " [MOBILE:" ++ it.mobile_url ++ "]" else line
  if it.rank ≠ 0 then line ++ " [RANK:" ++ toString it.rank ++ "]" else line

/-- The body of `render_ai_hotspots_text`: one rendered line per exported
item, in order. -/
def renderBody (lines : List AiHotspotLine) : List String :=
  lines.map renderLine

/-- Splits a list at the first occurrence of `c`: `some (before, after)`,
or `none` when `c` does not occur. -/
def breakOnChar (c : Char) : List Char → Option (List Char × List Char)
  | [] => none
  | x :: xs =>
    if x = c then some ([], xs)
    else (breakOnChar c xs).map (fun p => (x :: p.1, p.2))

/-- Python `date_str.split("-", 2)` followed by unpacking into `y, m, d`:
succeeds exactly when the split yields three parts, i.e. when the string
contains at least two dashes (the third part keeps any further dashes);
raises (`none`) otherwise. -/
def dateSplit (date_str : String) : Option (String × String × String) :=
  (breakOnChar '-' date_str.data).bind fun p =>
    (breakOnChar '-' p.2).map fun q =>
      (String.mk p.1, String.mk q.1, String.mk q.2)

/-- Python `"/".join parts`. -/
def joinSlash : List String → String
  | [] => ""
  | [x] => x
  | x :: y :: rest => x ++ "/" ++ joinSlash (y :: rest)

/-- Splits a character list at every `'/'`, keeping empty pieces (the raw
component split underlying `pathlib` parsing). -/
def splitSlashList : List Char → List (List Char)
  | [] => [[]]
  | c :: rest =>
    let r := splitSlashList rest
    if c = '/' then [] :: r
    else
      match r with
      | [] => [[c]]
      | h :: t => (c :: h) :: t

/-- The path components `pathlib` keeps from one argument: the slash-split
pieces with empty strings and lone `"."` dropped. -/
def slashComponents (s : String) : List String :=
  ((splitSlashList s.data).map String.mk).filter
    (fun c => decide (c ≠ "" ∧ c ≠ "."))

/-- The root `PurePosixPath` assigns to an argument that starts with a
slash: `"//"` for exactly two leading slashes, else `"/"`. -/
def pathRoot (s : String) : String :=
  match s.data with
  | '/' :: '/' :: c :: _ => if c = '/' then "/" else "//"
  | '/' :: '/' :: [] => "//"
  | '/' :: _ => "/"
  | _ => ""

/-- One `pathlib` join step (`acc / a`): an argument starting with `'/'`
resets root and components, any other argument appends its components. -/
def posixStep (acc : String × List String) (a : String) :
    String × List String :=
  if a.data.head? = some '/' then (pathRoot a, slashComponents a)
  else (acc.1, acc.2 ++ slashComponents a)

/-- `str(PurePosixPath(p1, ..., pn))`: fold the join steps from an empty
relative path, then print root plus slash-joined components (`"."` for the
empty relative path). -/
def posixJoin (parts : List String) : String :=
  let rc := parts.foldl posixStep ("", [])
  if rc.1 = "" ∧ rc.2 = [] then "." else rc.1 ++ joinSlash rc.2

/-- `write_ai_hotspots_file`, restricted to its path computation: the
filesystem effects (directory creation, file write) are outside the
embedding; the function fails exactly when `dateSplit` does, and otherwise
returns `str(Path(local_base_dir) / y / m / d / filename)`, modelled by
the `PurePosixPath` join `posixJoin` (empty and `"."` components dropped,
repeated slashes collapsed, absolute components resetting the path). -/
def write_ai_hotspots_file (local_base_dir date_str filename : String) :
    Option String :=
  match dateSplit date_str with
  | none => none
  | some (y, m, d) =>
    some (posixJoin [local_base_dir, y, m, d, filename])

/-- Python `s.strip("/")`: drop leading and trailing `/` characters. -/
def stripSlashes (s : String) : String :=
  String.mk ((s.data.dropWhile (fun c => c = '/')).reverse.dropWhile
    (fun c => c = '/')).reverse

/-- `build_r2_key`: trim the prefix of whitespace and slashes, split the
date at its first two dashes, keep the non-empty parts and join them with
`/`. -/
def build_r2_key (pfx date_str filename : String) : Option String :=
  let pfx := stripSlashes (pyStrip pfx)
  match dateSplit date_str with
  | none => none
  | some (y, m, d) =>
    some (joinSlash (([pfx, y, m, d, filename]).filter (fun p => p ≠ "")))

/-- Spec-side walk for claim C1, following the claim's words: an item of
the flattened sequence is accepted iff its identity key is not in the
yesterday set and no **earlier item of the sequence** (accepted or not,
tracked in `earlier`) has the same key; accepted items keep their order.
The code's loop instead records only the keys of accepted items. -/
def specWalk (clean_title : String → String)
    (normalize_url : String → String → String) (yesterday_keys : List String) :
    List String → List NewsItem → List NewsItem
  | _, [] => []
  | earlier, it :: rest =>
    let key := _item_identity clean_title normalize_url it
    if key ∈ yesterday_keys ∨ key ∈ earlier then
      specWalk clean_title normalize_url yesterday_keys (key :: earlier) rest
    else
      it :: specWalk clean_title normalize_url yesterday_keys (key :: earlier) rest

/-- Spec-side head of one rendered body line (everything before the
optional bracket segments). -/
def lineHead (it : AiHotspotLine) : String :=
  toString it.idx ++ ". [platform=" ++ it.platform_name ++
    "] [platform_id=" ++ it.platform_id ++ "] " ++ it.title

/-- Spec-side segment list for claim C9: the `[URL:...]`, `[MOBILE:...]`
and `[RANK:...]` segments, present exactly when the corresponding field is
non-empty / non-zero, in that fixed order. -/
def specSegments (it : AiHotspotLine) : List String :=
  (if it.url ≠ "" then [" [URL:" ++ it.url ++ "]"] else []) ++
    (if it.mobile_url ≠ "" then [" [MOBILE:" ++ it.mobile_url ++ "]"] else []) ++
      (if it.rank ≠ 0 then [" [RANK:" ++ toString it.rank ++ "]"] else [])

/-- Spec-side name resolution for claim C7: the first non-empty value among
the candidate lookups, else the fallback. -/
def firstNonEmpty (fallback : String) : List (Option String) → String
  | [] => fallback
  | none :: rest => firstNonEmpty fallback rest
  | some s :: rest => if s = "" then firstNonEmpty fallback rest else s

/-- A small concrete today-snapshot used to instantiate witnesses: two
ranked items, a within-day duplicate of the first, and a carry-over from
`sampleYesterday`. -/
def sampleToday : NewsData :=
  { items := [("weibo", [{ source_id := "weibo", title := "Alpha", rank := 2 },
                         { source_id := "weibo", title := "Beta", rank := 1 },
                         { source_id := "weibo", title := "Alpha", rank := 3 },
                         { source_id := "weibo", title := "Old", rank := 4 }])],
    id_to_name := [("weibo", "微博")] }

/-- A small concrete yesterday-snapshot used to instantiate witnesses. -/
def sampleYesterday : NewsData :=
  { items := [("weibo", [{ source_id := "weibo", title := "Old" }])],
    id_to_name := [("weibo", "微博")] }

/-- A snapshot holding one ranked item (rank 1, below the sentinel) and one
unranked item, used to instantiate the ordering witness. -/
def mixedRankData : NewsData :=
  { items := [("a", [{ source_id := "a", title := "t", rank := 1 }]),
              ("b", [{ source_id := "b", title := "t" }])],
    id_to_name := [] }

/-- A snapshot holding one item whose rank 1000 exceeds the sentinel 999
and one unranked item, exhibiting the sentinel overflow. -/
def rank1000Data : NewsData :=
  { items := [("a", [{ source_id := "a", title := "t", rank := 1000 }]),
              ("b", [{ source_id := "b", title := "t" }])],
    id_to_name := [] }

/-- A snapshot whose only platform key is the empty string and whose name
mappings are empty, so name resolution falls back to the empty key. -/
def emptySidData : NewsData :=
  { items := [("", [{ source_id := "", title := "t" }])], id_to_name := [] }

example :
    build_r2_key "p" "2024-10-05" "f.txt" = some "p/2024/10/05/f.txt" := by
  decide

example : build_r2_key " /p/ " "2024-10-05-06" "f" = some "p/2024/10/05-06/f" := by
  decide

example : build_r2_key "" "2024--15" "f" = some "2024/15/f" := by decide

example : build_r2_key "p" "202410" "f" = none := by decide

example :
    _item_identity clean_title_model normalize_url_model
      { source_id := "s", title := "T", url := " u " } = "url:u" := by decide

example :
    _item_identity clean_title_model normalize_url_model
      { source_id := "s", title := "" } = "title:" := by decide

example :
    build_daily_unique_hotspots clean_title_model normalize_url_model
      { items := [("w", [{ source_id := "w", title := "A", rank := 2 },
                         { source_id := "w", title := "B", rank := 1 },
                         { source_id := "w", title := "A", rank := 3 }])],
        id_to_name := [("w", "Weibo")] }
      (some { items := [("w", [{ source_id := "w", title := "B" }])] })
      10 =
      ([{ idx := 1, platform_id := "w", platform_name := "Weibo", title := "A",
          rank := 2 }], 1) := by decide

/-! ## Helper lemmas -/

theorem enumFrom_map_add_one {α : Type} (l : List α) :
    ∀ n : Nat, (List.enumFrom n l).map (fun p => p.1 + 1) =
      List.range' (n + 1) l.length := by
  induction l with
  | nil => intro n; rfl
  | cons a l ih =>
    intro n
    simp [List.enumFrom_cons, List.range'_succ, ih]

theorem linesOf_map_idx (ct : String → String) (l : List NewsItem) :
    (linesOf ct l).map AiHotspotLine.idx = List.range' 1 l.length := by
  unfold linesOf
  rw [List.map_map]
  have h := enumFrom_map_add_one l 0
  simpa [List.enum] using h

theorem linesOf_length (ct : String → String) (l : List NewsItem) :
    (linesOf ct l).length = l.length := by
  simp [linesOf]

/-! ## Claims -/

/-- C3: the `idx` fields of the returned line list are exactly
`1, 2, ..., len(output)` in list order — contiguous from 1, no gaps, no
repeats — for every input, whatever dedup filtered and truncation
dropped. -/
theorem idx_contiguous_from_one (ct : String → String)
    (nu : String → String → String) (today : NewsData)
    (yesterday : Option NewsData) (max_items : Int) :
    ((build_daily_unique_hotspots ct nu today yesterday max_items).1).map
        AiHotspotLine.idx =
      List.range' 1
        ((build_daily_unique_hotspots ct nu today yesterday max_items).1).length := by
  show (linesOf ct _).map AiHotspotLine.idx = List.range' 1 (linesOf ct _).length
  rw [linesOf_map_idx, linesOf_length]

/-- C4: with `C` the number of candidates surviving both dedup passes, a
positive `max_items = k` yields the renumbered first `k` candidates (in
sort order) and output length `min k C`, a non-positive `max_items` yields
all `C` candidates, and `total_candidate_count` is always the
pre-truncation `C`. -/
theorem truncation_and_candidate_count (ct : String → String)
    (nu : String → String → String) (today : NewsData)
    (yesterday : Option NewsData) (max_items : Int) :
    ((build_daily_unique_hotspots ct nu today yesterday max_items).2 =
        (uniqueCandidates ct nu today yesterday).length) ∧
      (0 < max_items →
        (build_daily_unique_hotspots ct nu today yesterday max_items).1 =
            linesOf ct ((uniqueCandidates ct nu today yesterday).take
              max_items.toNat) ∧
          ((build_daily_unique_hotspots ct nu today yesterday max_items).1).length =
            min max_items.toNat (uniqueCandidates ct nu today yesterday).length) ∧
      (max_items ≤ 0 →
        ((build_daily_unique_hotspots ct nu today yesterday max_items).1).length =
          (uniqueCandidates ct nu today yesterday).length) := by
  refine ⟨rfl, fun hk => ?_, fun hk => ?_⟩
  · constructor
    · show linesOf ct (if max_items > 0 then _ else _) = _
      rw [if_pos hk]
    · show (linesOf ct (if max_items > 0 then _ else _)).length = _
      rw [if_pos hk, linesOf_length, List.length_take]
  · show (linesOf ct (if max_items > 0 then _ else _)).length = _
    rw [if_neg (by omega), linesOf_length]

/-- C4 witness: on `sampleToday` against `sampleYesterday`, `max_items = 1`
truncates the two surviving candidates to length `min 1 2 = 1`, and
`max_items = -1` keeps both. -/
theorem truncation_and_candidate_count_witness :
    ((build_daily_unique_hotspots clean_title_model normalize_url_model
          sampleToday (some sampleYesterday) 1).1.length =
        min (1 : Int).toNat
          (uniqueCandidates clean_title_model normalize_url_model sampleToday
            (some sampleYesterday)).length) ∧
      ((build_daily_unique_hotspots clean_title_model normalize_url_model
          sampleToday (some sampleYesterday) (-1)).1.length =
        (uniqueCandidates clean_title_model normalize_url_model sampleToday
          (some sampleYesterday)).length) :=
  ⟨((truncation_and_candidate_count clean_title_model normalize_url_model
      sampleToday (some sampleYesterday) 1).2.1 (by decide)).2,
   (truncation_and_candidate_count clean_title_model normalize_url_model
      sampleToday (some sampleYesterday) (-1)).2.2 (by decide)⟩

/-- C2: the builder is a pure function of its argument values — two
invocations on equal snapshots and equal `max_items` return field-by-field
equal `AiHotspotLine` sequences and equal candidate counts; nothing else
(hash order, clock, randomness) exists for the result to depend on. -/
theorem build_daily_unique_hotspots_deterministic (ct : String → String)
    (nu : String → String → String) (t1 t2 : NewsData)
    (y1 y2 : Option NewsData) (k1 k2 : Int) (ht : t1 = t2) (hy : y1 = y2)
    (hk : k1 = k2) :
    List.Forall₂ (fun a b : AiHotspotLine =>
        a.idx = b.idx ∧ a.platform_id = b.platform_id ∧
          a.platform_name = b.platform_name ∧ a.title = b.title ∧
          a.url = b.url ∧ a.mobile_url = b.mobile_url ∧ a.rank = b.rank)
      (build_daily_unique_hotspots ct nu t1 y1 k1).1
      (build_daily_unique_hotspots ct nu t2 y2 k2).1 ∧
    (build_daily_unique_hotspots ct nu t1 y1 k1).2 =
      (build_daily_unique_hotspots ct nu t2 y2 k2).2 := by
  subst ht hy hk
  exact ⟨List.forall₂_same.2 fun x _ => ⟨rfl, rfl, rfl, rfl, rfl, rfl, rfl⟩, rfl⟩

/-- C2 witness: the determinism theorem applied to two invocations on
`sampleToday` / `sampleYesterday` with `max_items = 5`. -/
theorem build_daily_unique_hotspots_deterministic_witness :
    List.Forall₂ (fun a b : AiHotspotLine =>
        a.idx = b.idx ∧ a.platform_id = b.platform_id ∧
          a.platform_name = b.platform_name ∧ a.title = b.title ∧
          a.url = b.url ∧ a.mobile_url = b.mobile_url ∧ a.rank = b.rank)
      (build_daily_unique_hotspots clean_title_model normalize_url_model
        sampleToday (some sampleYesterday) 5).1
      (build_daily_unique_hotspots clean_title_model normalize_url_model
        sampleToday (some sampleYesterday) 5).1 ∧
    (build_daily_unique_hotspots clean_title_model normalize_url_model
        sampleToday (some sampleYesterday) 5).2 =
      (build_daily_unique_hotspots clean_title_model normalize_url_model
        sampleToday (some sampleYesterday) 5).2 :=
  build_daily_unique_hotspots_deterministic clean_title_model
    normalize_url_model sampleToday sampleToday (some sampleYesterday)
    (some sampleYesterday) 5 5 rfl rfl rfl

/-- C5: the identity resolver returns `"url:" + normalize(url, source_id)`
when the whitespace-trimmed URL is non-empty, else
`"title:" + lowercase(clean(title))`; an item with empty URL and empty
title yields the well-defined key `"title:"` (given that cleaning the
empty title is empty) without failing. -/
theorem item_identity_url_title_fallback (ct : String → String)
    (nu : String → String → String) (item : NewsItem) :
    (pyStrip item.url ≠ "" →
        _item_identity ct nu item =
          "url:" ++ nu (pyStrip item.url) item.source_id) ∧
      (pyStrip item.url = "" →
        _item_identity ct nu item = "title:" ++ pyLower (ct item.title)) ∧
      (item.url = "" → item.title = "" → ct "" = "" →
        _item_identity ct nu item = "title:") := by
  refine ⟨fun h => ?_, fun h => ?_, fun hu ht hc => ?_⟩
  · simp [_item_identity, h]
  · simp [_item_identity, h]
  · have h0 : pyStrip (String.mk []) = "" := rfl
    simp [_item_identity, hu, ht, hc, h0, pyLower, String.append_empty]

/-- C5 witness: a URL item keys by its trimmed URL, and the degenerate
empty item keys as `"title:"`. -/
theorem item_identity_url_title_fallback_witness :
    _item_identity clean_title_model normalize_url_model
        { source_id := "s", title := "T", url := " u " } = "url:u" ∧
      _item_identity clean_title_model normalize_url_model
        { source_id := "s", title := "" } = "title:" := by
  constructor
  · exact ((item_identity_url_title_fallback clean_title_model
      normalize_url_model { source_id := "s", title := "T", url := " u " }).1
      (by decide)).trans (by decide)
  · exact (item_identity_url_title_fallback clean_title_model
      normalize_url_model { source_id := "s", title := "" }).2.2 rfl rfl rfl

/-- C9: a rendered body line is its fixed head followed by exactly the
bracket segments of the fields that are non-empty / non-zero, in the fixed
order URL, MOBILE, RANK; in particular with a URL, a rank and no mobile
URL the line is the head followed by the URL segment then the RANK
segment. -/
theorem render_line_segments (it : AiHotspotLine) :
    renderLine it =
        (specSegments it).foldl (fun acc s => acc ++ s) (lineHead it) ∧
      (it.url ≠ "" → it.mobile_url = "" → it.rank ≠ 0 →
        renderLine it =
          (lineHead it ++ (" [URL:" ++ it.url ++ "]")) ++
            (" [RANK:" ++ toString it.rank ++ "]")) := by
  constructor
  · by_cases hu : it.url = "" <;> by_cases hm : it.mobile_url = "" <;>
      by_cases hr : it.rank = 0 <;>
      (apply String.ext;
        simp [renderLine, specSegments, lineHead, hu, hm, hr,
          String.data_append, List.append_assoc])
  · intro hu hm hr
    apply String.ext
    simp [renderLine, lineHead, hu, hm, hr, String.data_append,
      List.append_assoc]

/-- C9 witness: the render scenario of the spec — URL and rank set, mobile
URL empty — ends with `[URL:...] [RANK:...]` and carries no MOBILE
segment. -/
theorem render_line_segments_witness :
    renderLine
        { idx := 1, platform_id := "p", platform_name := "n",
          title := "T", url := "u", rank := 5 } =
      "1. [platform=n] [platform_id=p] T [URL:u] [RANK:5]" :=
  ((render_line_segments
      { idx := 1, platform_id := "p", platform_name := "n",
        title := "T", url := "u", rank := 5 }).2 (by decide) rfl
    (by decide)).trans (by decide)

theorem specWalk_sublist (ct : String → String) (nu : String → String → String)
    (yk : List String) :
    ∀ (ts : List NewsItem) (earlier : List String),
      List.Sublist (specWalk ct nu yk earlier ts) ts := by
  intro ts
  induction ts with
  | nil => intro earlier; exact List.Sublist.refl _
  | cons it rest ih =>
    intro earlier
    simp only [specWalk]
    split
    · exact (ih _).cons it
    · exact (ih _).cons₂ it

theorem dedupWalk_eq_specWalk (ct : String → String)
    (nu : String → String → String) (yk : List String) :
    ∀ (ts : List NewsItem) (tseen earlier : List String),
      (∀ s, (s ∈ tseen ∨ s ∈ yk) ↔ (s ∈ earlier ∨ s ∈ yk)) →
      dedupWalk ct nu yk ts tseen = specWalk ct nu yk earlier ts := by
  intro ts
  induction ts with
  | nil => intro tseen earlier _; rfl
  | cons it rest ih =>
    intro tseen earlier h
    by_cases hy : _item_identity ct nu it ∈ yk
    · have hs : _item_identity ct nu it ∈ yk ∨ _item_identity ct nu it ∈ earlier :=
        Or.inl hy
      simp only [dedupWalk, specWalk, if_pos hy, if_pos hs]
      refine ih tseen (_item_identity ct nu it :: earlier) fun s => ?_
      constructor
      · intro hst
        rcases (h s).1 hst with h' | h'
        · exact Or.inl (List.mem_cons_of_mem _ h')
        · exact Or.inr h'
      · intro hst
        rcases hst with h' | h'
        · rcases List.mem_cons.1 h' with rfl | h''
          · exact Or.inr hy
          · exact (h s).2 (Or.inl h'')
        · exact Or.inr h'
    · by_cases ht : _item_identity ct nu it ∈ tseen
      · have he : _item_identity ct nu it ∈ earlier :=
          (((h _).1 (Or.inl ht)).resolve_right hy)
        have hs : _item_identity ct nu it ∈ yk ∨ _item_identity ct nu it ∈ earlier :=
          Or.inr he
        simp only [dedupWalk, specWalk, if_neg hy, if_pos ht, if_pos hs]
        refine ih tseen (_item_identity ct nu it :: earlier) fun s => ?_
        constructor
        · intro hst
          rcases (h s).1 hst with h' | h'
          · exact Or.inl (List.mem_cons_of_mem _ h')
          · exact Or.inr h'
        · intro hst
          rcases hst with h' | h'
          · rcases List.mem_cons.1 h' with rfl | h''
            · exact Or.inl ht
            · exact (h s).2 (Or.inl h'')
          · exact Or.inr h'
      · have he : _item_identity ct nu it ∉ earlier := fun hm =>
          (((h _).2 (Or.inl hm)).elim ht hy)
        have hs : ¬(_item_identity ct nu it ∈ yk ∨ _item_identity ct nu it ∈ earlier) := by
          rintro (h' | h')
          · exact hy h'
          · exact he h'
        simp only [dedupWalk, specWalk, if_neg hy, if_neg ht, if_neg hs]
        refine congrArg (it :: ·)
          (ih (_item_identity ct nu it :: tseen)
            (_item_identity ct nu it :: earlier) fun s => ?_)
        constructor
        · intro hst
          rcases hst with h' | h'
          · rcases List.mem_cons.1 h' with rfl | h''
            · exact Or.inl (List.mem_cons_self _ _)
            · rcases (h s).1 (Or.inl h'') with h3 | h3
              · exact Or.inl (List.mem_cons_of_mem _ h3)
              · exact Or.inr h3
          · exact Or.inr h'
        · intro hst
          rcases hst with h' | h'
          · rcases List.mem_cons.1 h' with rfl | h''
            · exact Or.inl (List.mem_cons_self _ _)
            · rcases (h s).2 (Or.inl h'') with h3 | h3
              · exact Or.inl (List.mem_cons_of_mem _ h3)
              · exact Or.inr h3
          · exact Or.inr h'

/-- C1: the candidate list of `build_daily_unique_hotspots` is exactly the
spec's walk of today's flattened, sorted sequence — an item is accepted iff
its identity key is neither in the set of identity keys of yesterday's
flattened items (empty when no yesterday snapshot is given) nor the key of
**any** earlier item of the sequence, and accepted items keep the sort
order (the walk is a subsequence of the flattened sequence). -/
theorem dedup_accepts_iff_fresh_identity (ct : String → String)
    (nu : String → String → String) (today : NewsData)
    (yesterday : Option NewsData) (max_items : Int) :
    uniqueCandidates ct nu today yesterday =
        specWalk ct nu (yesterdaySeen ct nu yesterday) []
          (_flatten_news ct today today.id_to_name) ∧
      (build_daily_unique_hotspots ct nu today yesterday max_items).2 =
        (specWalk ct nu (yesterdaySeen ct nu yesterday) []
          (_flatten_news ct today today.id_to_name)).length ∧
      List.Sublist (uniqueCandidates ct nu today yesterday)
        (_flatten_news ct today today.id_to_name) ∧
      yesterdaySeen ct nu none = [] := by
  have hmain :
      uniqueCandidates ct nu today yesterday =
        specWalk ct nu (yesterdaySeen ct nu yesterday) []
          (_flatten_news ct today today.id_to_name) :=
    dedupWalk_eq_specWalk ct nu _ _ [] [] fun s => Iff.rfl
  refine ⟨hmain, ?_, ?_, rfl⟩
  · show (uniqueCandidates ct nu today yesterday).length = _
    rw [hmain]
  · rw [hmain]
    exact specWalk_sublist ct nu _ _ _

/-- C6 counterexample: in a snapshot holding a ranked item (`"a"`, rank
1000, rank present) and an unranked item (`"b"`), the flattener sorts the
unranked item **before** the ranked one, because the sentinel used for
"unranked" is the fixed constant 999, which is not larger than every real
rank.  This refutes the claim that every ranked item sorts before every
unranked item. -/
theorem unranked_before_rank_1000_cex :
    (_flatten_news clean_title_model rank1000Data rank1000Data.id_to_name).map
        (fun it => (it.source_id, it.rank)) = [("b", 0), ("a", 1000)] := by
  decide

/-- C6 (amended): the flattener's output is sorted ascending by the key
`(rank if present else the sentinel 999, source_id, cleaned title)`, and
every unranked item sorts after every ranked item **whose rank is below
the sentinel 999** (the counterexample shows the restriction is needed:
rank 1000 sorts after unranked items). -/
theorem flatten_sorted_unranked_after_ranked (ct : String → String)
    (data : NewsData) (id_to_name : List (String × String)) :
    List.Sorted (itemLE ct) (_flatten_news ct data id_to_name) ∧
      ∀ (i j : Fin (_flatten_news ct data id_to_name).length),
        ((_flatten_news ct data id_to_name).get i).rank = 0 →
        ((_flatten_news ct data id_to_name).get j).rank ≠ 0 →
        ((_flatten_news ct data id_to_name).get j).rank < 999 →
        j < i := by
  have hs : List.Sorted (itemLE ct) (_flatten_news ct data id_to_name) := by
    unfold _flatten_news
    exact List.sorted_insertionSort (itemLE ct) _
  refine ⟨hs, fun i j h0 hr h999 => ?_⟩
  rcases lt_trichotomy i j with hij | hij | hij
  · exfalso
    have hle := hs.rel_get_of_lt hij
    unfold itemLE at hle
    simp only [sortKey, intOr, h0, if_pos, if_neg hr] at hle
    rcases (Prod.Lex.le_iff _ _).1 hle with hlt | ⟨heq, _⟩
    · omega
    · omega
  · exfalso
    rw [hij] at h0
    exact hr h0
  · exact hij

/-- C6 witness: on `mixedRankData` the ranked item (rank 1 < 999) lands at
position 0, the unranked one at position 1, and the amended theorem
concludes `0 < 1`. -/
theorem flatten_sorted_unranked_after_ranked_witness :
    (⟨0, by decide⟩ : Fin
        (_flatten_news clean_title_model mixedRankData
          mixedRankData.id_to_name).length) <
      ⟨1, by decide⟩ :=
  (flatten_sorted_unranked_after_ranked clean_title_model mixedRankData
      mixedRankData.id_to_name).2 ⟨1, by decide⟩ ⟨0, by decide⟩
    (by decide) (by decide) (by decide)

/-- C7 counterexample: a flattened item filed under the empty platform key,
with no name mapping entry, resolves to the empty `source_name`, refuting
the claim that the resolved `source_name` is never empty. -/
theorem flatten_empty_source_name_cex :
    (_flatten_news clean_title_model emptySidData emptySidData.id_to_name).map
        NewsItem.source_name = [""] := by
  decide

theorem resolveName_ne_empty (ov : List (String × String)) (data : NewsData)
    (sid : String) (h : sid ≠ "") : resolveName ov data sid ≠ "" := by
  rcases h1 : dictGet ov sid with _ | s1 <;>
    rcases h2 : dictGet data.id_to_name sid with _ | s2 <;>
    simp [resolveName, strOr, h1, h2, h] <;>
    split_ifs <;>
    simp_all

/-- C7 (amended): the resolved `source_name` of each flattened item is the
first non-empty value among the override mapping's entry for the platform
key the item is filed under, the snapshot's own mapping entry, and the raw
key itself — each flattened item arises from an item of the list stored
under some key `sid` of the snapshot, with `source_name` set to
`resolveName` of that very `sid` — and its name is non-empty **whenever
that key is non-empty** (the counterexample shows the empty key yields an
empty name). -/
theorem source_name_resolution (ct : String → String)
    (ov : List (String × String)) (data : NewsData) :
    (∀ sid, resolveName ov data sid =
        firstNonEmpty sid [dictGet ov sid, dictGet data.id_to_name sid]) ∧
      (∀ it, it ∈ _flatten_news ct data ov →
        ∃ sid lst it0, (sid, lst) ∈ data.items ∧ it0 ∈ lst ∧
          it = { it0 with source_name := resolveName ov data sid } ∧
          (sid ≠ "" → it.source_name ≠ "")) ∧
      (∀ sid, sid ≠ "" → resolveName ov data sid ≠ "") := by
  refine ⟨fun sid => ?_, fun it hit => ?_, resolveName_ne_empty ov data⟩
  · rcases h1 : dictGet ov sid with _ | s1 <;>
      rcases h2 : dictGet data.id_to_name sid with _ | s2 <;>
      simp [resolveName, firstNonEmpty, strOr, h1, h2]
  · unfold _flatten_news at hit
    rw [(List.perm_insertionSort _ _).mem_iff, List.mem_flatMap] at hit
    rcases hit with ⟨p, hp, hmem⟩
    rcases List.mem_map.1 hmem with ⟨it0, hit0, heq⟩
    refine ⟨p.1, p.2, it0, hp, hit0, heq.symm, fun hsid => ?_⟩
    rw [← heq]
    exact resolveName_ne_empty ov data p.1 hsid

/-- C7 witness: the amended resolution theorem instantiated on
`sampleToday` (membership of the first flattened item) and on a non-empty
platform key with no mapping entries. -/
theorem source_name_resolution_witness :
    (∃ sid lst it0, (sid, lst) ∈ sampleToday.items ∧ it0 ∈ lst ∧
        (_flatten_news clean_title_model sampleToday
            sampleToday.id_to_name).get ⟨0, by decide⟩ =
          { it0 with
              source_name := resolveName sampleToday.id_to_name sampleToday
                sid } ∧
        (sid ≠ "" →
          ((_flatten_news clean_title_model sampleToday
            sampleToday.id_to_name).get ⟨0, by decide⟩).source_name ≠ "")) ∧
      resolveName [] { items := [], id_to_name := [] } "weibo" ≠ "" :=
  ⟨(source_name_resolution clean_title_model sampleToday.id_to_name
      sampleToday).2.1 _ (by decide),
    (source_name_resolution clean_title_model []
      { items := [], id_to_name := [] }).2.2 "weibo" (by decide)⟩

theorem breakOnChar_eq_none_iff (c : Char) (l : List Char) :
    breakOnChar c l = none ↔ c ∉ l := by
  induction l with
  | nil => simp [breakOnChar]
  | cons x xs ih =>
    by_cases hx : x = c
    · subst hx
      simp [breakOnChar]
    · have hx' : ¬(c = x) := fun h => hx h.symm
      simp [breakOnChar, hx, hx', ih]

theorem breakOnChar_append (c : Char) (a rest : List Char) (ha : c ∉ a) :
    breakOnChar c (a ++ c :: rest) = some (a, rest) := by
  induction a with
  | nil => simp [breakOnChar]
  | cons x xs ih =>
    have hx : x ≠ c := fun h => ha (h ▸ List.mem_cons_self _ _)
    have hxs : c ∉ xs := fun h => ha (List.mem_cons_of_mem _ h)
    simp [breakOnChar, hx, ih hxs]

theorem breakOnChar_some (c : Char) :
    ∀ l a rest, breakOnChar c l = some (a, rest) → l = a ++ c :: rest ∧ c ∉ a := by
  intro l
  induction l with
  | nil => intro a rest h; simp [breakOnChar] at h
  | cons x xs ih =>
    intro a rest h
    by_cases hx : x = c
    · subst hx
      simp [breakOnChar] at h
      obtain ⟨rfl, rfl⟩ := h
      exact ⟨rfl, by simp⟩
    · simp only [breakOnChar, if_neg hx] at h
      rcases hmap : breakOnChar c xs with _ | ⟨a', r'⟩
      · rw [hmap] at h
        simp at h
      · rw [hmap] at h
        have h' : (x :: a', r') = (a, rest) := Option.some.inj h
        have ha : x :: a' = a := congrArg Prod.fst h'
        have hr : r' = rest := congrArg Prod.snd h'
        subst ha hr
        obtain ⟨hl, hn⟩ := ih a' r' hmap
        refine ⟨by simp [hl], ?_⟩
        intro hc
        rcases List.mem_cons.1 hc with h'' | h''
        · exact hx h''.symm
        · exact hn h''

theorem dateSplit_none_iff (s : String) :
    dateSplit s = none ↔ s.data.count '-' < 2 := by
  unfold dateSplit
  rcases h1 : breakOnChar '-' s.data with _ | ⟨y, rest⟩
  · have hc := (breakOnChar_eq_none_iff '-' s.data).1 h1
    simp [List.count_eq_zero.2 hc]
  · obtain ⟨hl, hn⟩ := breakOnChar_some '-' s.data y rest h1
    rcases h2 : breakOnChar '-' rest with _ | ⟨m, d⟩
    · have hc := (breakOnChar_eq_none_iff '-' rest).1 h2
      simp only [Option.some_bind]
      rw [h2, hl]
      simp [List.count_append, List.count_cons, List.count_eq_zero.2 hn,
        List.count_eq_zero.2 hc]
    · obtain ⟨hl2, hn2⟩ := breakOnChar_some '-' rest m d h2
      simp only [Option.some_bind]
      rw [h2, hl, hl2]
      simp [List.count_append, List.count_cons, List.count_eq_zero.2 hn,
        List.count_eq_zero.2 hn2]

theorem dateSplit_append (y m d : String) (hy : '-' ∉ y.data)
    (hm : '-' ∉ m.data) :
    dateSplit (y ++ "-" ++ m ++ "-" ++ d) = some (y, m, d) := by
  unfold dateSplit
  have hdata : (y ++ "-" ++ m ++ "-" ++ d).data =
      y.data ++ '-' :: (m.data ++ '-' :: d.data) := by
    simp [String.data_append]
  rw [hdata, breakOnChar_append _ _ _ hy]
  simp only [Option.some_bind]
  rw [breakOnChar_append _ _ _ hm]
  rfl

theorem noSlash_list_ok (l : List Char) (hnd : '/' ∉ l) :
    l.head? ≠ some '/' ∧ l.getLast? ≠ some '/' ∧
      List.Chain' (fun a b : Char => a ≠ '/' ∨ b ≠ '/') l := by
  refine ⟨fun h => hnd (List.mem_of_mem_head? h), fun h =>
    hnd (List.mem_of_mem_getLast? h), ?_⟩
  exact (List.pairwise_of_forall_mem_list
    (fun a ha _ _ => Or.inl (fun (e : a = '/') => hnd (e ▸ ha)))).chain'

theorem joinSlash_data_ok :
    ∀ parts : List String, (∀ p ∈ parts, p ≠ "" ∧ '/' ∉ p.data) →
      ((joinSlash parts).data.head? ≠ some '/' ∧
        (joinSlash parts).data.getLast? ≠ some '/' ∧
        List.Chain' (fun a b : Char => a ≠ '/' ∨ b ≠ '/')
          (joinSlash parts).data) ∧
      (parts ≠ [] → (joinSlash parts).data ≠ []) := by
  intro parts
  induction parts with
  | nil =>
    intro _
    exact ⟨⟨by simp [joinSlash], by simp [joinSlash], by simp [joinSlash]⟩,
      fun hne => absurd rfl hne⟩
  | cons x rest ih =>
    intro h
    obtain ⟨hx0, hxs⟩ := h x (List.mem_cons_self _ _)
    have hxd : x.data ≠ [] := fun he => hx0 (String.ext (by simpa using he))
    rcases rest with _ | ⟨y, rest'⟩
    · exact ⟨noSlash_list_ok x.data hxs, fun _ => hxd⟩
    · have hrest : ∀ p ∈ y :: rest', p ≠ "" ∧ '/' ∉ p.data := fun p hp =>
        h p (List.mem_cons_of_mem _ hp)
      obtain ⟨⟨ihh, ihl, ihc⟩, ihne⟩ := ih hrest
      have hJne : (joinSlash (y :: rest')).data ≠ [] := ihne (by simp)
      have hdata : (joinSlash (x :: y :: rest')).data =
          x.data ++ '/' :: (joinSlash (y :: rest')).data := by
        show (x ++ "/" ++ joinSlash (y :: rest')).data = _
        simp [String.data_append]
      refine ⟨⟨?_, ?_, ?_⟩, fun _ => ?_⟩
      · rw [hdata, List.head?_append_of_ne_nil x.data hxd]
        exact (noSlash_list_ok x.data hxs).1
      · rw [hdata, List.getLast?_append]
        rcases hJ : (joinSlash (y :: rest')).data with _ | ⟨c, cs⟩
        · exact absurd hJ hJne
        · rcases hg : (c :: cs).getLast? with _ | a
          · simp at hg
          · rw [List.getLast?_cons_cons, hg, Option.or_some]
            intro hcontra
            apply ihl
            rw [hJ, hg]
            exact hcontra
      · rw [hdata, List.chain'_append]
        refine ⟨(noSlash_list_ok x.data hxs).2.2, ?_, ?_⟩
        · rw [List.chain'_cons']
          refine ⟨fun b hb => Or.inr fun hb' => ihh ?_, ihc⟩
          rwa [hb'] at hb
        · intro a ha b _
          exact Or.inl fun ha' => hxs (ha' ▸ List.mem_of_mem_getLast? ha)
      · rw [hdata]
        simp

theorem splitSlashList_no_slash (l : List Char) (h : '/' ∉ l) :
    splitSlashList l = [l] := by
  induction l with
  | nil => rfl
  | cons c rest ih =>
    have hc : c ≠ '/' := fun e => h (e ▸ List.mem_cons_self _ _)
    have hr : '/' ∉ rest := fun e => h (List.mem_cons_of_mem _ e)
    simp [splitSlashList, hc, ih hr]

theorem slashComponents_plain (s : String) (h0 : s ≠ "") (h1 : s ≠ ".")
    (h2 : '/' ∉ s.data) : slashComponents s = [s] := by
  unfold slashComponents
  rw [splitSlashList_no_slash s.data h2]
  simp [h0, h1]

theorem posixStep_plain (acc : String × List String) (a : String)
    (h0 : a ≠ "") (h1 : a ≠ ".") (h2 : '/' ∉ a.data) :
    posixStep acc a = (acc.1, acc.2 ++ [a]) := by
  have hh : ¬(a.data.head? = some '/') := fun e =>
    h2 (List.mem_of_mem_head? e)
  unfold posixStep
  rw [if_neg hh, slashComponents_plain a h0 h1 h2]

theorem foldl_posixStep_plain :
    ∀ (parts : List String) (acc : String × List String),
      (∀ p ∈ parts, p ≠ "" ∧ p ≠ "." ∧ '/' ∉ p.data) →
      parts.foldl posixStep acc = (acc.1, acc.2 ++ parts) := by
  intro parts
  induction parts with
  | nil => intro acc _; simp
  | cons a rest ih =>
    intro acc h
    obtain ⟨h0, h1, h2⟩ := h a (List.mem_cons_self _ _)
    rw [List.foldl_cons, posixStep_plain acc a h0 h1 h2,
      ih _ fun p hp => h p (List.mem_cons_of_mem _ hp)]
    simp

theorem write_ai_hotspots_file_none_iff (base date fn : String) :
    write_ai_hotspots_file base date fn = none ↔ dateSplit date = none := by
  unfold write_ai_hotspots_file
  rcases dateSplit date with _ | ⟨yy, mm, dd⟩ <;> simp

theorem build_r2_key_none_iff (pfx date fn : String) :
    build_r2_key pfx date fn = none ↔ dateSplit date = none := by
  unfold build_r2_key
  rcases dateSplit date with _ | ⟨yy, mm, dd⟩ <;> simp

/-- C8 counterexample: `"2024-10-05-06"` splits into four dash-separated
components (it contains three dashes), so per the claim both builders must
fail on it; instead `split("-", 2)` stops after the first two dashes, the
third component keeps the extra dash, and both builders succeed.  This
refutes the claim that they fail exactly on dates that are not exactly
three dash-separated components. -/
theorem path_builders_accept_extra_dash_cex :
    ("2024-10-05-06".data.count '-' = 3) ∧
      write_ai_hotspots_file "b" "2024-10-05-06" "f" =
        some "b/2024/10/05-06/f" ∧
      build_r2_key "p" "2024-10-05-06" "f" = some "p/2024/10/05-06/f" := by
  decide

/-- C8 (amended): `write_ai_hotspots_file` and `build_r2_key` fail exactly
when the date string contains fewer than two dashes (`split("-", 2)` splits
at the first two dashes only, so any further dashes stay inside the third
component and do not cause a failure); on success the local path is the
`pathlib` join of base, date components and filename, which for a
well-formed `Y-M-D` date with plain non-empty components equals
`base/Y/M/D/filename`, and the remote key with non-empty parts is
`pfx/Y/M/D/filename`. -/
theorem path_builders_fail_iff_lt_two_dashes (base pfx date fn : String) :
    (write_ai_hotspots_file base date fn = none ↔ date.data.count '-' < 2) ∧
      (build_r2_key pfx date fn = none ↔ date.data.count '-' < 2) ∧
      (∀ y m d : String, '-' ∉ y.data → '-' ∉ m.data →
        write_ai_hotspots_file base (y ++ "-" ++ m ++ "-" ++ d) fn =
          some (posixJoin [base, y, m, d, fn])) ∧
      (∀ y m d : String, '-' ∉ y.data → '-' ∉ m.data →
        (∀ p ∈ [base, y, m, d, fn], p ≠ "" ∧ p ≠ "." ∧ '/' ∉ p.data) →
        write_ai_hotspots_file base (y ++ "-" ++ m ++ "-" ++ d) fn =
          some (base ++ "/" ++ y ++ "/" ++ m ++ "/" ++ d ++ "/" ++ fn)) ∧
      (∀ y m d : String, '-' ∉ y.data → '-' ∉ m.data →
        y ≠ "" → m ≠ "" → d ≠ "" → fn ≠ "" →
        stripSlashes (pyStrip pfx) ≠ "" →
        build_r2_key pfx (y ++ "-" ++ m ++ "-" ++ d) fn =
          some (stripSlashes (pyStrip pfx) ++ "/" ++ y ++ "/" ++ m ++ "/" ++
            d ++ "/" ++ fn)) := by
  refine ⟨(write_ai_hotspots_file_none_iff base date fn).trans
      (dateSplit_none_iff date),
    (build_r2_key_none_iff pfx date fn).trans (dateSplit_none_iff date),
    fun y m d hy hm => ?_, fun y m d hy hm hplain => ?_,
    fun y m d hy hm hy0 hm0 hd0 hf0 hp0 => ?_⟩
  · unfold write_ai_hotspots_file
    rw [dateSplit_append y m d hy hm]
  · unfold write_ai_hotspots_file
    rw [dateSplit_append y m d hy hm]
    show some (posixJoin [base, y, m, d, fn]) = _
    refine congrArg some ?_
    simp only [posixJoin]
    rw [foldl_posixStep_plain _ _ hplain]
    simp only [List.nil_append]
    rw [if_neg (by simp)]
    apply String.ext
    simp [joinSlash, String.data_append, List.append_assoc]
  · unfold build_r2_key
    rw [dateSplit_append y m d hy hm]
    have hall : ∀ p ∈ [stripSlashes (pyStrip pfx), y, m, d, fn],
        decide (p ≠ "") = true := by
      intro p hp
      simp only [List.mem_cons, List.not_mem_nil, or_false] at hp
      rcases hp with rfl | rfl | rfl | rfl | rfl <;> simp_all
    show some (joinSlash (List.filter _ _)) = _
    rw [List.filter_eq_self.2 hall]
    refine congrArg some ?_
    apply String.ext
    simp [joinSlash, String.data_append, List.append_assoc]

/-- C8 witness: the amended theorem applied to the well-formed date
`2024-10-05` produces the expected local path and remote key, and to a
dash-free date it reports the failure. -/
theorem path_builders_fail_iff_lt_two_dashes_witness :
    (write_ai_hotspots_file "base" ("2024" ++ "-" ++ "10" ++ "-" ++ "05")
        "f.txt" =
      some ("base" ++ "/" ++ "2024" ++ "/" ++ "10" ++ "/" ++ "05" ++ "/" ++
        "f.txt")) ∧
      (build_r2_key " /p/ " ("2024" ++ "-" ++ "10" ++ "-" ++ "05") "f.txt" =
        some (stripSlashes (pyStrip " /p/ ") ++ "/" ++ "2024" ++ "/" ++ "10" ++
          "/" ++ "05" ++ "/" ++ "f.txt")) ∧
      (write_ai_hotspots_file "base" "20241005" "f.txt" = none) :=
  ⟨(path_builders_fail_iff_lt_two_dashes "base" " /p/ " "x" "f.txt").2.2.2.1
      "2024" "10" "05" (by decide) (by decide) (by decide),
    (path_builders_fail_iff_lt_two_dashes "base" " /p/ " "x" "f.txt").2.2.2.2
      "2024" "10" "05" (by decide) (by decide) (by decide) (by decide)
      (by decide) (by decide) (by decide),
    (path_builders_fail_iff_lt_two_dashes "base" " /p/ " "20241005"
        "f.txt").1.2 (by decide)⟩

/-- C10 counterexample: a filename that itself ends in a slash is a
non-empty part, so it is kept whole and the returned key ends in a slash —
refuting the claim that the returned key never contains a trailing slash
(the same shape produces empty segments and leading slashes for other
slash-carrying parts). -/
theorem r2_key_trailing_slash_cex :
    build_r2_key "" "2024--15" "f/" = some "2024/15/f/" ∧
      "2024/15/f/".data.getLast? = some '/' := by
  decide

/-- C10 (amended): for a date with at least two dashes (written `y-m-d`
with its first two components dash-free), `build_r2_key` succeeds and
returns the slash-join of the non-empty parts among the trimmed prefix,
the three date components and the filename; provided those parts contain
no slash themselves, the key has no leading slash, no trailing slash and
no empty segment (no two adjacent slashes). -/
theorem r2_key_joins_nonempty_parts (pfx y m d fn : String)
    (hy : '-' ∉ y.data) (hm : '-' ∉ m.data)
    (hp2 : '/' ∉ (stripSlashes (pyStrip pfx)).data) (hy2 : '/' ∉ y.data)
    (hm2 : '/' ∉ m.data) (hd2 : '/' ∉ d.data) (hf2 : '/' ∉ fn.data) :
    build_r2_key pfx (y ++ "-" ++ m ++ "-" ++ d) fn =
        some (joinSlash (([stripSlashes (pyStrip pfx), y, m, d, fn]).filter
          (fun p => p ≠ ""))) ∧
      (joinSlash (([stripSlashes (pyStrip pfx), y, m, d, fn]).filter
          (fun p => p ≠ ""))).data.head? ≠ some '/' ∧
      (joinSlash (([stripSlashes (pyStrip pfx), y, m, d, fn]).filter
          (fun p => p ≠ ""))).data.getLast? ≠ some '/' ∧
      List.Chain' (fun a b : Char => a ≠ '/' ∨ b ≠ '/')
        (joinSlash (([stripSlashes (pyStrip pfx), y, m, d, fn]).filter
          (fun p => p ≠ ""))).data := by
  have hparts : ∀ p ∈ ([stripSlashes (pyStrip pfx), y, m, d, fn]).filter
      (fun p => p ≠ ""), p ≠ "" ∧ '/' ∉ p.data := by
    intro p hp
    have hmem := List.mem_of_mem_filter hp
    have hne := List.of_mem_filter hp
    simp only [List.mem_cons, List.not_mem_nil, or_false] at hmem
    refine ⟨by simpa using hne, ?_⟩
    rcases hmem with rfl | rfl | rfl | rfl | rfl
    · exact hp2
    · exact hy2
    · exact hm2
    · exact hd2
    · exact hf2
  obtain ⟨⟨h1, h2, h3⟩, _⟩ := joinSlash_data_ok _ hparts
  refine ⟨?_, h1, h2, h3⟩
  unfold build_r2_key
  rw [dateSplit_append y m d hy hm]

/-- C10 witness: the claim's own example — date `2024--15`, empty prefix —
yields `2024/15/f` with the empty month component omitted. -/
theorem r2_key_joins_nonempty_parts_witness :
    build_r2_key "" ("2024" ++ "-" ++ "" ++ "-" ++ "15") "f" =
      some "2024/15/f" :=
  ((r2_key_joins_nonempty_parts "" "2024" "" "15" "f" (by decide) (by decide)
      (by decide) (by decide) (by decide) (by decide) (by decide)).1).trans
    (by decide)

example : posixJoin ["b", "2024", "10", "05", "f"] = "b/2024/10/05/f" := by
  decide

example : posixJoin ["b", "", "10", "05", "f"] = "b/10/05/f" := by decide

example : posixJoin ["b", "/x", "f"] = "/x/f" := by decide

example : posixJoin ["b", "//x"] = "//x" := by decide

example : posixJoin ["b", "///x"] = "/x" := by decide

example : posixJoin [".", "a"] = "a" := by decide

example : posixJoin ["a//b", "c"] = "a/b/c" := by decide

example : posixJoin ["", "", "", ""] = "." := by decide

example : posixJoin ["a", "/"] = "/" := by decide

example : posixJoin ["..", "a"] = "../a" := by decide
